import Mathlib

/-!
Shallow embedding of the hamming_pipeline repository.

Sources embedded:
  src/mmcp-impl/src/coder.rs        (encode_data, interleave_segments, decode_data,
                                     get_error_index, get_info_bits, uninterleave_data)
  src/mmcp/src/analytics.rs         (analyze: residual bit error computation)
  src/mmcp-identity/src/main.rs     (main: per-configuration run loop)

Modeling conventions:
  - u8 values are Nat; where a Rust u8 operation can shift bits past the top
    we write the explicit % 256 truncation.
  - Rust panics are modeled as Option.none: index out of bounds always panics;
    arithmetic overflow (the u8 subtraction 7 - count once count exceeds 7)
    panics in a debug build, which is the default cargo profile.
  - while loops whose progress variable is data dependent take a fuel
    argument; fuel exhaustion yields none, and the wrappers pass fuel that
    exceeds the number of iterations any input can reach.
-/

namespace HammingPipeline

/-- Upper codeword of a byte, from encode_data in src/mmcp-impl/src/coder.rs
(identical in src/mmcp-student_impl/src/coder.rs).  In Rust,
(byte & 0b1000_0000) << 6 is a u8 shift, so the surviving bits are
(value << 6) % 256, which is always 0. -/
def segment_up (byte : Nat) : Nat :=
  let p1 := ((byte >>> 7) &&& 1) ^^^ ((byte >>> 6) &&& 1) ^^^ ((byte >>> 4) &&& 1)
  let p2 := ((byte >>> 7) &&& 1) ^^^ ((byte >>> 5) &&& 1) ^^^ ((byte >>> 4) &&& 1)
  let p4 := ((byte >>> 6) &&& 1) ^^^ ((byte >>> 5) &&& 1) ^^^ ((byte >>> 4) &&& 1)
  (((byte &&& 0b10000000) <<< 6) % 256) ||| (byte >>> 4) |||
    (p1 <<< 7) ||| (p2 <<< 2) ||| (p4 <<< 1)

/-- Lower codeword of a byte, from encode_data in src/mmcp-impl/src/coder.rs.
Note that p4 reads bit 6 of the byte, which belongs to the upper nibble. -/
def segment_low (byte : Nat) : Nat :=
  let p1 := ((byte >>> 3) &&& 1) ^^^ ((byte >>> 2) &&& 1) ^^^ (byte &&& 1)
  let p2 := ((byte >>> 3) &&& 1) ^^^ ((byte >>> 1) &&& 1) ^^^ (byte &&& 1)
  let p4 := ((byte >>> 6) &&& 1) ^^^ ((byte >>> 1) &&& 1) ^^^ (byte &&& 1)
  (byte &&& 0b00001111) ||| (((byte &&& 0b00001000) <<< 3) % 256) |||
    (p1 <<< 7) ||| (p2 <<< 2) ||| (p4 <<< 1)

/-- Mutable-loop state of interleave_segments and uninterleave_data:
the output list, the byte under construction, and the never-reset bit
counter count. -/
structure IState where
  out : List Nat
  cur : Nat
  count : Nat

/-- One iteration of the shared inner loop body of interleave_segments and
uninterleave_data:
  byte |= ((data[j] >> (7-i)) & 1) << (7-count); count += 1;
  if count == 7 push byte and reset it.
count has type u8, so once count exceeds 7 the subtraction 7 - count
underflows: a debug build panics, modeled as none. -/
def ilBody (data : List Nat) (i j : Nat) (st : IState) : Option IState :=
  if 8 ≤ st.count then none
  else
    let cur := st.cur ||| ((((data.getD j 0) >>> (7 - i)) &&& 1) <<< (7 - st.count))
    let count := st.count + 1
    if count = 7 then some ⟨st.out ++ [cur], 0, count⟩
    else some ⟨st.out, cur, count⟩

/-- One pass of the while body shared by interleave_segments and
uninterleave_data: for i in 0..7 { for j in processed..blocks { body } },
starting from a fresh byte and a fresh count but the accumulated output. -/
def ilPass (data : List Nat) (processed blocks : Nat) (out : List Nat) :
    Option IState :=
  (List.range 7).foldlM
    (fun st i =>
      (List.range (blocks - processed)).foldlM
        (fun st2 dj => ilBody data i (processed + dj) st2) st)
    (⟨out, 0, 0⟩ : IState)

/-- The while loop of interleave_segments: after each pass, processed += 8
and the partially built byte is pushed. -/
def ilLoop (segments : List Nat) (blocks : Nat) :
    Nat → Nat → List Nat → Option (List Nat)
  | 0, processed, out => if processed < blocks then none else some out
  | fuel + 1, processed, out =>
    if processed < blocks then
      match ilPass segments processed blocks out with
      | none => none
      | some st => ilLoop segments blocks fuel (processed + 8) (st.out ++ [st.cur])
    else some out

/-- interleave_segments from src/mmcp-impl/src/coder.rs.  When the segment
count is not a multiple of 8, the padding zeros are pushed onto the OUTPUT
list before any interleaving; the segments themselves are not extended and
no pad count is returned. -/
def interleave_segments (segments : List Nat) : Option (List Nat) :=
  let blocks := segments.length
  let pad : List Nat :=
    if blocks % 8 ≠ 0 then List.replicate (8 - blocks % 8) 0 else []
  ilLoop segments blocks (blocks + 1) 0 pad

/-- encode_data from src/mmcp-impl/src/coder.rs: two codewords per input
byte, then interleave_segments on the whole sequence. -/
def encode_data (data : List Nat) : Option (List Nat) :=
  let segments := data.foldl (fun acc b => acc ++ [segment_up b, segment_low b]) []
  interleave_segments segments

/-- get_error_index from src/mmcp-impl/src/coder.rs: XOR of the index of
every set bit with index in 0..7 exclusive, i.e. bits 0 through 6; bit 7 is
never examined. -/
def get_error_index (byte : Nat) : Nat :=
  (List.range 7).foldl
    (fun e i => if byte &&& (1 <<< i) ≠ 0 then e ^^^ i else e) 0

/-- get_info_bits from src/mmcp-impl/src/coder.rs: the four selected bits
are all OR-ed into bit position 0 of the result. -/
def get_info_bits (byte : Nat) : Nat :=
  ((((0 : Nat) ||| ((byte >>> 5) &&& 1)) ||| ((byte >>> 3) &&& 1)) |||
    ((byte >>> 2) &&& 1)) ||| ((byte >>> 1) &&& 1)

/-- The per-codeword decode step as performed inline in decode_data (lower
branch): syndrome via get_error_index, flip the indicated bit when nonzero,
then extract data via get_info_bits. -/
def decode_codeword (w : Nat) : Nat :=
  let e := get_error_index w
  if e ≠ 0 then get_info_bits (w ^^^ (1 <<< e)) else get_info_bits w

/-- One iteration of the first loop of decode_data, at even index i
(i < data.length).  The computed info byte is pushed only under the guard
i + 1 > data.length, which never holds inside the loop; the unconditional
read data[i + 1] is out of bounds when i + 1 = data.length (odd length),
which panics: none. -/
def decodePair (data : List Nat) (decoded : List Nat) (i : Nat) :
    Option (List Nat) :=
  let upper_byte := data.getD i 0
  let e := get_error_index upper_byte
  let info_byte :=
    if e ≠ 0 then (get_info_bits (upper_byte ^^^ (1 <<< e))) <<< 4
    else (get_info_bits upper_byte) <<< 4
  let decoded := if i + 1 > data.length then decoded ++ [info_byte] else decoded
  if i + 1 < data.length then
    let lower_byte := data.getD (i + 1) 0
    let e2 := get_error_index lower_byte
    let _info_byte2 :=
      if e2 ≠ 0 then info_byte ||| get_info_bits (lower_byte ^^^ (1 <<< e2))
      else info_byte ||| get_info_bits lower_byte
    some decoded
  else none

/-- decode_data from src/mmcp-impl/src/coder.rs.  The first loop walks even
indices, computes an info byte per pair and discards it (its only pushes
sit under an unreachable guard); the second loop pushes, for every input
byte, the byte with bit 0 masked off and the bit named by its syndrome
flipped when the syndrome is nonzero.  No nibble merging takes place. -/
def decode_data (data : List Nat) : Option (List Nat) :=
  match ((List.range data.length).filter (fun i => i % 2 = 0)).foldlM
      (decodePair data) ([] : List Nat) with
  | none => none
  | some decoded =>
    some (data.foldl
      (fun acc b =>
        let encoded_byte := b &&& 0b11111110
        let e := get_error_index encoded_byte
        if e ≠ 0 then acc ++ [encoded_byte ^^^ (1 <<< e)]
        else acc ++ [encoded_byte])
      decoded)

/-- The while loop of uninterleave_data: the body is the same as the
interleave loop, but processed advances by the final value of count. -/
def uilLoop (data : List Nat) (blocks : Nat) :
    Nat → Nat → List Nat → Option (List Nat)
  | 0, processed, out => if processed < blocks then none else some out
  | fuel + 1, processed, out =>
    if processed < blocks then
      match ilPass data processed blocks out with
      | none => none
      | some st =>
        uilLoop data blocks fuel (processed + st.count) (st.out ++ [st.cur])
    else some out

/-- uninterleave_data from src/mmcp-impl/src/coder.rs: same loop structure
as interleave_segments, no padding removal of any kind. -/
def uninterleave_data (data : List Nat) : Option (List Nat) :=
  uilLoop data data.length (data.length + 1) 0 []

/-- Popcount of a byte value, as u8::count_ones for inputs below 256. -/
def countOnes (b : Nat) : Nat :=
  ((List.range 8).filter (fun i => b.testBit i)).length

/-- Residual bit error computation from analyze in src/mmcp/src/analytics.rs:
input.bytes().zip(output.bytes()).map(popcount of xor).sum().  Rust zip
stops at the shorter sequence, so unequal lengths silently truncate. -/
def residual_bit_errors (input output : List Nat) : Nat :=
  ((input.zip output).map (fun p => countOnes (p.1 ^^^ p.2))).sum

/-- The run loop of main in src/mmcp-identity/src/main.rs, parameterized by
the effectful stages: for each channel, pipeline_run then analyze, each
with the question-mark operator, accumulating the analytics records that
main would hand to report.  Any error propagates out of the whole loop. -/
def mainRun {C M A E : Type} (pipeline_run : C → Except E M)
    (analyze : C → M → Except E A) : List C → Except E (List A)
  | [] => Except.ok []
  | c :: cs =>
    match pipeline_run c with
    | Except.error e => Except.error e
    | Except.ok m =>
      match analyze c m with
      | Except.error e => Except.error e
      | Except.ok a =>
        match mainRun pipeline_run analyze cs with
        | Except.error e => Except.error e
        | Except.ok rest => Except.ok (a :: rest)

/-- Syndrome following the words of the specification (section 4.1 and the
C5 claim): XOR of the bit-index of every set bit in the codeword, with all
8 bit positions considered. -/
def spec_syndrome_all8 (byte : Nat) : Nat :=
  (List.range 8).foldl
    (fun e i => if byte &&& (1 <<< i) ≠ 0 then e ^^^ i else e) 0

/-- C1: the round trip encode_data then decode_data on the one-byte sequence
[0] does not reproduce [0]: interleave_segments, called at the end of
encode_data, underflows the u8 subtraction 7 - count once count reaches 8,
so a debug build panics before any output is produced. -/
theorem c1_roundtrip_fails_on_zero_byte :
    (encode_data [0]).bind decode_data = none := by rfl

/-- C2: for the upper codeword 138 produced by the encoder from byte 165
(0xA5, upper nibble 10), decoding the unflipped codeword yields 1, not the
original nibble 10, and flipping bit 1 changes the decoded value to 0, so
decoding after a single flip does not return the original nibble either. -/
theorem c2_decode_not_original_nibble :
    segment_up 165 = 138 ∧ decode_codeword 138 = 1 ∧
      decode_codeword (138 ^^^ (1 <<< 1)) = 0 ∧ 165 >>> 4 = 10 :=
  ⟨rfl, rfl, rfl, rfl⟩

/-- C3: the padding round trip fails already at the one-codeword sequence
[0]: interleave_segments [0] returns nine bytes (seven padding bytes pushed
onto the output, one interleaved byte, one trailing partial byte), and
uninterleave_data on those nine bytes underflows 7 - count and panics, so
the composition is none, not some [0]. -/
theorem c3_padding_roundtrip_fails :
    (interleave_segments [0]).bind uninterleave_data = none := by rfl

/-- C4: the codeword layout invariant is violated: bytes 0 and 64 share the
lower nibble 0 yet their lower codewords differ (0 versus 2), because the
p4 parity of the lower codeword reads bit 6 of the byte, which belongs to
the upper nibble; and the upper codeword of byte 16 has bit 0 set, so the
reserved bit is not fixed to zero (the data nibble overlaps positions 2 and
1 where p2 and p4 are OR-ed in, and position 0). -/
theorem c4_layout_invariant_violated :
    segment_low 0 = 0 ∧ segment_low 64 = 2 ∧ segment_up 16 &&& 1 = 1 :=
  ⟨rfl, rfl, rfl⟩

/-- C5 counterexample: on the codeword 128 (only bit 7 set) the decoder's
syndrome is 0, while the XOR of the bit-index of every set bit over all 8
bit positions is 7; the loop for i in 0..7 never examines bit 7. -/
theorem c5_syndrome_bit7_counterexample :
    get_error_index 128 = 0 ∧ spec_syndrome_all8 128 = 7 := ⟨rfl, rfl⟩

set_option maxRecDepth 8192 in
/-- C5 amended: for every 8-bit codeword, the decoder's syndrome equals the
XOR of the bit-index of every set bit among bit positions 0 through 6 only,
i.e. the all-8-positions syndrome of the codeword with bit 7 cleared. -/
theorem c5_amended_syndrome_ignores_bit7 :
    ∀ b : Fin 256, get_error_index b.val = spec_syndrome_all8 (b.val % 128) := by
  decide

/-- C6: interleave_segments does not append pad codewords to the input
sequence: on the one-codeword sequence [255] it pushes the seven padding
zeros onto the FRONT of the output byte list, returns nine bytes (not a
multiple of 8), records no pad count anywhere in its return value, and the
interleaved byte 254 shows the input was processed unpadded (7 bits of one
codeword, not one bit from each of 8 codewords). -/
theorem c6_padding_prepended_to_output :
    interleave_segments [255] = some [0, 0, 0, 0, 0, 0, 0, 254, 0] := by rfl

/-- C7: interleave_segments panics on every full 8-codeword block: with 8
segments the inner loops run 7 * 8 times while count is never reset, so
7 - count underflows at the ninth iteration and a debug build panics; no
interleaved bytes exist for a burst to corrupt. -/
theorem c7_interleave_full_block_panics :
    interleave_segments (List.replicate 8 0) = none := by rfl

/-- C8 counterexample: on sequences of different lengths ([0, 255] versus
[1]) the residual bit error computation does not fail: zip silently
truncates to the common prefix and returns the defined value 1. -/
theorem c8_unequal_lengths_silently_truncate :
    residual_bit_errors [0, 255] [1] = 1 := by rfl

/-- C8 amended: for equal-length byte sequences the residual bit error
count equals the sum over every byte position of the population count of
(original byte XOR final byte); for sequences of different lengths the code
does not fail but silently computes the same sum over the common prefix. -/
theorem c8_amended_residual_popcount_sum (l1 l2 : List Nat)
    (h : l1.length = l2.length) :
    residual_bit_errors l1 l2 =
      ((List.range l1.length).map
        (fun i => countOnes ((l1.getD i 0) ^^^ (l2.getD i 0)))).sum := by
  induction l1 generalizing l2 with
  | nil => simp [residual_bit_errors]
  | cons a t ih =>
    cases l2 with
    | nil => simp at h
    | cons b t2 =>
      have h2 : t.length = t2.length := by simpa using h
      simp only [residual_bit_errors, List.zip_cons_cons, List.map_cons,
        List.sum_cons, List.length_cons, List.range_succ_eq_map,
        List.map_map, Function.comp_def, List.getD_cons_zero,
        List.getD_cons_succ]
      rw [show (((t.zip t2).map (fun p => countOnes (p.1 ^^^ p.2))).sum =
          ((List.range t.length).map
            (fun i => countOnes ((t.getD i 0) ^^^ (t2.getD i 0)))).sum)
        from ih t2 h2]

/-- C8 witness: the amended statement evaluated on the equal-length
sequences [0, 255] and [1, 255], where the residual count is 1. -/
theorem c8_amended_residual_witness :
    ([0, 255] : List Nat).length = ([1, 255] : List Nat).length ∧
    residual_bit_errors [0, 255] [1, 255] =
      ((List.range ([0, 255] : List Nat).length).map
        (fun i => countOnes ((([0, 255] : List Nat).getD i 0) ^^^
          (([1, 255] : List Nat).getD i 0)))).sum :=
  ⟨rfl, c8_amended_residual_popcount_sum [0, 255] [1, 255] rfl⟩

/-- C9 counterexample: with two configurations where the first fails and
the second would succeed, the run loop of main returns the propagated
error; no analytics list is produced, so no report row exists for the
second (succeeding) configuration. -/
theorem c9_failure_stops_remaining_configs :
    mainRun (fun c : Bool => if c then Except.ok (0 : Nat) else Except.error ())
      (fun _ m => Except.ok m) [false, true] = Except.error () := rfl

/-- C9 amended: a failure of pipeline_run on a configuration propagates out
of the whole run loop of main: the error is returned, analytics for that
configuration and all remaining configurations are skipped, and report is
never reached. -/
theorem c9_amended_error_aborts_whole_run {C M A E : Type}
    (pipeline_run : C → Except E M) (analyze : C → M → Except E A)
    (c : C) (cs : List C) (e : E) (h : pipeline_run c = Except.error e) :
    mainRun pipeline_run analyze (c :: cs) = Except.error e := by
  simp [mainRun, h]

/-- C9 witness: the amended statement at a concrete failing configuration. -/
theorem c9_amended_error_aborts_whole_run_witness :
    (fun _ : Bool => (Except.error () : Except Unit Nat)) false =
      Except.error () ∧
    mainRun (fun _ : Bool => (Except.error () : Except Unit Nat))
      (fun _ m => Except.ok m) [false] = Except.error () :=
  ⟨rfl, c9_amended_error_aborts_whole_run _ _ false [] () rfl⟩

/-- C10: decode_data is not total at the public interface: on the
odd-length input [0] the pairwise loop reads data[i + 1] = data[1], which
is out of bounds (the guard i + 1 > data.len() is false at i + 1 =
data.len() and does not skip the access), so a panic occurs: none. -/
theorem c10_decode_panics_on_odd_length : decode_data [0] = none := by rfl

end HammingPipeline
